import Mathlib

/-!
Verification of the whisper-discord `whisper-api` transcription core.

Shallow embedding of the Python sources under `src/whisper-api/src/services/`
(`hallucination_filter.py`, `aizuchi_filter.py`, `hotwords.py`, `whisper.py`).
Python strings are modelled as `List Char` (one element per code point, so
`len`/slicing match Python's code-point semantics).  Floats that only undergo
exact arithmetic in the source (log-probability sums, the 80% coverage ratio,
processing times) are modelled as `ℚ`; the single float comparison
`expected_len / len(text) >= 0.8` is modelled as the exact rational comparison,
which agrees with the double computation for all realistic text lengths.
Regex matching for the twelve hallucination patterns is compiled by hand into
decidable functions below; the aizuchi pattern list (whose content no claim
depends on) is abstracted as a list of Boolean predicates.
-/

namespace WhisperApi

/-- The set of characters Python treats as whitespace for `str.strip`,
`str.split()` and (Unicode) `\s`.  Covers every whitespace code point
Python recognises. -/
def pySpace (c : Char) : Bool :=
  c = ' ' || c = '\t' || c = '\n' || c = '\r' || c = '\x0b' || c = '\x0c' ||
  c = '\x1c' || c = '\x1d' || c = '\x1e' || c = '\x1f' || c = '\x85' ||
  c = ' ' || c = ' ' ||
  c = ' ' || c = ' ' || c = ' ' || c = ' ' || c = ' ' ||
  c = ' ' || c = ' ' || c = ' ' || c = ' ' || c = ' ' ||
  c = ' ' || c = ' ' || c = ' ' || c = ' ' || c = ' ' ||
  c = '　'

/-- Python `str.strip()`: drop leading and trailing whitespace. -/
def pyStrip (s : List Char) : List Char :=
  ((s.dropWhile pySpace).reverse.dropWhile pySpace).reverse

/-- Helper for `pySplit`: accumulates the current (reversed) token. -/
def pySplitAux : List Char → List Char → List (List Char)
  | [], [] => []
  | [], acc => [acc.reverse]
  | c :: cs, acc =>
      if pySpace c then
        if acc = [] then pySplitAux cs []
        else acc.reverse :: pySplitAux cs []
      else pySplitAux cs (c :: acc)

/-- Python `str.split()` with no argument: split on runs of whitespace,
dropping empty tokens. -/
def pySplit (s : List Char) : List (List Char) :=
  pySplitAux s []

/-- Worker for `pyCount`, structurally recursive on a fuel argument so that
it reduces inside the kernel; `fuel ≥ length of the text` is always enough,
since every recursive call strictly shortens the text. -/
def pyCountFuel (pat : List Char) : Nat → List Char → Nat
  | _, [] => if pat = [] then 1 else 0
  | 0, _ :: _ => 0
  | fuel + 1, c :: cs =>
      if pat = [] then cs.length + 2
      else if pat.isPrefixOf (c :: cs) then
        1 + pyCountFuel pat fuel ((c :: cs).drop pat.length)
      else
        pyCountFuel pat fuel cs

/-- Python `str.count(pat)` for non-empty `pat`: number of non-overlapping
occurrences, scanning left to right.  (For an empty pattern Python returns
`len + 1`; the source only ever calls it with patterns of length ≥ 2.) -/
def pyCount (pat s : List Char) : Nat :=
  pyCountFuel pat s.length s

/-- Convenience: the character list of a string literal. -/
def pys (s : String) : List Char := s.data

/-- Python regex `$` (no MULTILINE): a match may stop either at the end of the
string or just before a newline that is the string's last character.  This
helper removes that optional final newline. -/
def dropFinalNewline (s : List Char) : List Char :=
  match s.getLast? with
  | some '\n' => s.dropLast
  | _ => s

/-- `re.search` of `^lit.*$`: the text starts with `lit` and the remainder is
newline-free (up to an optional final newline). -/
def matchPrefixDotStar (lit : List Char) (s : List Char) : Bool :=
  lit.isPrefixOf s && (dropFinalNewline (s.drop lit.length)).all (· ≠ '\n')

/-- `re.search` of `^lit$`: the whole text is `lit`, up to an optional final
newline. -/
def matchExact (lit : List Char) (s : List Char) : Bool :=
  dropFinalNewline s = lit

/-- `re.search` of `^c+$` for a single character class member `c`. -/
def matchRepChar (c : Char) (s : List Char) : Bool :=
  dropFinalNewline s ≠ [] && (dropFinalNewline s).all (· = c)

/-- `re.search` of `^\s*lit\s*$`: the stripped text is exactly `lit`. -/
def matchStripped (lit : List Char) (s : List Char) : Bool :=
  pyStrip s = lit

/-- Unanchored substring search (`re.search` of a literal pattern). -/
def isSubstring (pat s : List Char) : Bool :=
  decide (pat <:+: s)

/-- `HallucinationFilter.HALLUCINATION_PATTERNS` compiled by hand
(`hallucination_filter.py` lines 37–50); `detect_pattern_hallucination`
(lines 116–133) searches them in order and reports whether any matches.
`re.IGNORECASE` only affects the ASCII pattern `music`, handled by
lower-casing the text. -/
def detect_pattern_hallucination (s : List Char) : Bool :=
  if s = [] then false
  else
    matchPrefixDotStar (pys "字幕提供") s ||
    matchPrefixDotStar (pys "ご視聴ありがとうございました") s ||
    matchPrefixDotStar (pys "チャンネル登録") s ||
    matchExact (pys "お疲れ様でした") s ||
    matchRepChar '.' s ||
    matchRepChar ',' s ||
    (s.all pySpace) ||
    (isSubstring (pys "music") (s.map Char.toLower) || '♪' ∈ s || '♫' ∈ s) ||
    isSubstring (pys "[音楽]") s ||
    isSubstring (pys "[拍手]") s ||
    matchStripped (pys "お") s ||
    matchStripped (pys "ん") s

/-- Filter-relevant state of a `HallucinationFilter` instance:
configuration (lines 66–68) plus its `HallucinationStats` counters
(lines 14–16). -/
structure HallucinationFilter where
  enabled : Bool
  min_repetition_count : Nat
  max_repetition_length : Nat
  total_filtered : Nat
  repetition_filtered : Nat
  pattern_filtered : Nat
deriving Repr, DecidableEq

/-- A `HallucinationFilter(...)` with the constructor defaults
(`enabled=True, min_repetition_count=3, max_repetition_length=20`) and fresh
stats. -/
def HallucinationFilter.default : HallucinationFilter :=
  ⟨true, 3, 20, 0, 0, 0⟩

/-- Does prefix length `len` qualify in the substring-repetition scan
(`hallucination_filter.py` lines 104–112)?  `text.count(phrase)` counts
non-overlapping occurrences; `expected_len / len(text) >= 0.8` is the exact
rational comparison `5 * expected_len ≥ 4 * len(text)`. -/
def substringQualifies (f : HallucinationFilter) (t : List Char) (len : Nat) : Bool :=
  let phrase := t.take len
  let repetitions := pyCount phrase t
  f.min_repetition_count ≤ repetitions &&
    4 * t.length ≤ 5 * (phrase.length * repetitions)

/-- The substring-repetition scan of `detect_repetition`
(lines 103–112): try prefix lengths `range(2, min(max_repetition_length + 1,
len(text) // 2 + 1))` in increasing order and return the first qualifying
length. -/
def detectSubstringLen (f : HallucinationFilter) (t : List Char) : Option Nat :=
  (List.range' 2 (min (f.max_repetition_length + 1) (t.length / 2 + 1) - 2)).find?
    (fun len => substringQualifies f t len)

/-- `HallucinationFilter.detect_repetition` (lines 77–114).  The length guard
uses the unstripped text; the word split and the substring scan use the
stripped text (line 91 rebinds `text`). -/
def detect_repetition (f : HallucinationFilter) (text : List Char) :
    Bool × Option (List Char) :=
  if text = [] || text.length < 6 then (false, none)
  else
    let t := pyStrip text
    let words := pySplit t
    match words with
    | w :: ws =>
        if f.min_repetition_count ≤ (w :: ws).length && ws.all (· = w) then
          (true, some w)
        else
          match detectSubstringLen f t with
          | some len => (true, some (t.take len))
          | none => (false, none)
    | [] =>
        match detectSubstringLen f t with
        | some len => (true, some (t.take len))
        | none => (false, none)

/-- Result triple of `HallucinationFilter.filter`. -/
structure FilterOutcome where
  text : List Char
  was_filtered : Bool
  reason : Option (List Char)
deriving Repr, DecidableEq

/-- `HallucinationFilter.filter` (lines 135–172), as a state transformer:
returns the updated filter (stats counters) together with
`(filtered_text, was_filtered, reason)`. -/
def HallucinationFilter.filter (f : HallucinationFilter) (text : List Char) :
    HallucinationFilter × FilterOutcome :=
  if !f.enabled || text = [] then (f, ⟨text, false, none⟩)
  else if detect_pattern_hallucination text then
    ({ f with total_filtered := f.total_filtered + 1,
              pattern_filtered := f.pattern_filtered + 1 },
     ⟨[], true, some (pys "pattern_match")⟩)
  else
    match detect_repetition f text with
    | (true, some p) =>
        let f' := { f with total_filtered := f.total_filtered + 1,
                           repetition_filtered := f.repetition_filtered + 1 }
        if p ≠ [] then (f', ⟨pyStrip p, true, some (pys "repetition:" ++ p)⟩)
        else (f', ⟨[], true, some (pys "repetition")⟩)
    | (true, none) =>
        ({ f with total_filtered := f.total_filtered + 1,
                  repetition_filtered := f.repetition_filtered + 1 },
         ⟨[], true, some (pys "repetition")⟩)
    | (false, _) => (f, ⟨text, false, none⟩)

/-- State of an `AizuchiFilter` (`aizuchi_filter.py` lines 58–75).  The
compiled regex patterns are abstracted as Boolean predicates on the (already
stripped) fragment; no claim depends on the content of the default pattern
list. -/
structure AizuchiFilter where
  patterns : List (List Char → Bool)
  max_length : Nat
  enabled : Bool

/-- `AizuchiFilter.is_aizuchi` (lines 82–111): disabled ⇒ false; trimmed
fragment longer than `max_length` ⇒ false; empty trimmed fragment ⇒ false;
otherwise test the trimmed fragment against the patterns in order. -/
def AizuchiFilter.is_aizuchi (f : AizuchiFilter) (text : List Char) : Bool :=
  if !f.enabled then false
  else
    let t := pyStrip text
    if f.max_length < t.length then false
    else if t.length = 0 then false
    else f.patterns.any (fun p => p t)

/-- `TranscriptionStats` (`whisper.py` lines 17–54). -/
structure TranscriptionStats where
  total_requests : Nat
  successful_requests : Nat
  failed_requests : Nat
  total_processing_time : ℚ
  total_audio_seconds : ℚ
deriving Repr, DecidableEq

/-- Fresh stats (all dataclass defaults zero). -/
def TranscriptionStats.init : TranscriptionStats := ⟨0, 0, 0, 0, 0⟩

/-- `TranscriptionStats.record` (lines 27–40). -/
def TranscriptionStats.record (st : TranscriptionStats) (processing_time : ℚ)
    (success : Bool) (audio_duration_seconds : ℚ := 0) : TranscriptionStats :=
  { total_requests := st.total_requests + 1
    total_processing_time := st.total_processing_time + processing_time
    total_audio_seconds := st.total_audio_seconds + audio_duration_seconds
    successful_requests :=
      if success then st.successful_requests + 1 else st.successful_requests
    failed_requests :=
      if success then st.failed_requests else st.failed_requests + 1 }

/-- `TranscriptionStats.success_rate` (lines 49–54): 1.0 when no requests
recorded, else the success ratio. -/
def TranscriptionStats.success_rate (st : TranscriptionStats) : ℚ :=
  if st.total_requests = 0 then 1
  else (st.successful_requests : ℚ) / (st.total_requests : ℚ)

/-- `HotwordsManager.add` (`hotwords.py` lines 111–125) restricted to its
effect on the list: append if absent. -/
def hotwordsAdd (hw : List String) (w : String) : List String :=
  if w ∈ hw then hw else hw ++ [w]

/-- `HotwordsManager.add_many` (lines 127–141), list effect only. -/
def hotwordsAddMany (hw : List String) (ws : List String) : List String :=
  ws.foldl hotwordsAdd hw

/-- `HotwordsManager.merge_with_request_hotwords` (lines 200–224): copy the
registry list, append request words not already in the combined list, truncate
to `max_total`, join with `", "`. -/
def merge_with_request_hotwords (hw : List String)
    (request_hotwords : Option (List String)) (max_total : Nat) : String :=
  let combined :=
    match request_hotwords with
    | none => hw
    | some ws => ws.foldl (fun acc w => if w ∈ acc then acc else acc ++ [w]) hw
  String.intercalate ", " (combined.take max_total)

/-- One decoded segment as consumed by `_transcribe_local`
(`whisper.py` lines 277–287): its text and `avg_logprob`. -/
structure Segment where
  text : List Char
  avg_logprob : ℚ

/-- The provider kinds dispatched on in `whisper.py` (`config.provider`). -/
inductive ProviderKind where
  | localProvider
  | groq
  | openai
deriving Repr, DecidableEq

/-- Exceptions visible to the orchestrator: the "not loaded" `RuntimeError`s
of `whisper.py` lines 198/236, and arbitrary provider exceptions (tagged by an
opaque code so that "re-raised unchanged" is expressible). -/
inductive PyExn where
  | runtimeNotReady
  | providerError (code : Nat)
deriving Repr, DecidableEq

/-- Configuration fields of `WhisperConfig` that the modelled code reads. -/
structure WhisperConfig where
  provider : ProviderKind
  aizuchi_max_length : Nat
  initial_hotwords : List String

/-- State of a `WhisperService` (`whisper.py` lines 60–102).  The
faster-whisper model object and the cloud-provider client are opaque; only
their presence matters to the modelled control flow. -/
structure WhisperService where
  provider_type : ProviderKind
  model : Option Unit
  cloud_provider : Option Unit
  aizuchi_filter : AizuchiFilter
  hallucination_filter : HallucinationFilter
  stats : TranscriptionStats
  hotwords : List String

/-- `WhisperService.__init__` (lines 60–102): both filters are constructed
with `enabled=False` (lines 77–87); hotwords are loaded from configuration.
The compiled aizuchi regex list is passed in as `patterns`. -/
def WhisperService.init (cfg : WhisperConfig)
    (patterns : List (List Char → Bool)) : WhisperService :=
  { provider_type := cfg.provider
    model := none
    cloud_provider := none
    aizuchi_filter := ⟨patterns, cfg.aizuchi_max_length, false⟩
    hallucination_filter := ⟨false, 3, 20, 0, 0, 0⟩
    stats := TranscriptionStats.init
    hotwords := hotwordsAddMany [] cfg.initial_hotwords }

/-- One iteration of the segment-consumption loop of `_transcribe_local`
(lines 277–287): strip the segment text; when the aizuchi filter applies and
fires, count it as filtered, otherwise keep the text and accumulate
`avg_logprob` and the kept-segment count. -/
def aggStep (aiz : AizuchiFilter) (filter_aizuchi : Bool)
    (acc : List (List Char) × ℚ × Nat × Nat) (seg : Segment) :
    List (List Char) × ℚ × Nat × Nat :=
  let (parts, lp, cnt, filt) := acc
  let text := pyStrip seg.text
  if filter_aizuchi && aiz.is_aizuchi text then (parts, lp, cnt, filt + 1)
  else (parts ++ [text], lp + seg.avg_logprob, cnt + 1, filt)

/-- The segment-consumption loop of `_transcribe_local` (lines 272–292):
returns (kept text parts, total log-probability, kept segment count, filtered
count). -/
def aggregateSegments (aiz : AizuchiFilter) (filter_aizuchi : Bool)
    (segs : List Segment) : List (List Char) × ℚ × Nat × Nat :=
  segs.foldl (aggStep aiz filter_aizuchi) ([], 0, 0, 0)

/-- The confidence mapping of `_transcribe_local` line 306:
`min(1.0, max(0.0, 1.0 + avg_logprob / 3))`. -/
def clampConfidence (avg_logprob : ℚ) : ℚ :=
  min 1 (max 0 (1 + avg_logprob / 3))

/-- `WhisperService._transcribe_local` (lines 227–328) as a pure state
transformer.  The audio decoding itself is external, so its outcome (the
segment list plus audio duration, or an exception) is an input; wall-clock
time is likewise an input (`elapsed`).  The `initial_prompt` construction
(lines 241–256) only feeds the external decoder and is recorded here for
faithfulness. -/
def WhisperService.transcribeLocal (s : WhisperService)
    (outcome : Except PyExn (List Segment × ℚ)) (language : List Char)
    (filter_aizuchi : Bool) (additional_hotwords : Option (List String))
    (elapsed : ℚ) : WhisperService × Except PyExn (List Char × ℚ × ℚ) :=
  match s.model with
  | none => (s, .error .runtimeNotReady)
  | some _ =>
    match outcome with
    | .error e =>
        ({ s with stats := s.stats.record elapsed false 0 }, .error e)
    | .ok (segs, duration) =>
        let hotwords_prompt := merge_with_request_hotwords s.hotwords additional_hotwords 50
        let _initial_prompt : Option String :=
          if language = pys "ja" then
            some (if hotwords_prompt ≠ "" then
                    "これは日本語の会話です。Discordのボイスチャンネルで話しています。 用語: " ++ hotwords_prompt
                  else
                    "これは日本語の会話です。Discordのボイスチャンネルで話しています。")
          else if hotwords_prompt ≠ "" then some hotwords_prompt else none
        let agg := aggregateSegments s.aizuchi_filter filter_aizuchi segs
        let parts := agg.1
        let total_logprob := agg.2.1
        let segment_count := agg.2.2.1
        let joined := pyStrip (List.intercalate [' '] parts)
        let fres := s.hallucination_filter.filter joined
        let confidence : ℚ :=
          if segment_count = 0 then 0
          else clampConfidence (total_logprob / segment_count)
        let stats := s.stats.record elapsed (!fres.2.text.isEmpty) duration
        ({ s with hallucination_filter := fres.1, stats := stats },
         .ok (fres.2.text, confidence, elapsed))

/-- `WhisperService._transcribe_cloud` (lines 191–225) as a pure state
transformer over the provider's outcome. -/
def WhisperService.transcribeCloud (s : WhisperService)
    (outcome : Except PyExn (List Char × ℚ × ℚ)) (elapsed : ℚ) :
    WhisperService × Except PyExn (List Char × ℚ × ℚ) :=
  match s.cloud_provider with
  | none => (s, .error .runtimeNotReady)
  | some _ =>
    match outcome with
    | .error e =>
        ({ s with stats := s.stats.record elapsed false 0 }, .error e)
    | .ok (text0, confidence, processing_time) =>
        let fres := s.hallucination_filter.filter text0
        let stats := s.stats.record processing_time (!fres.2.text.isEmpty) 0
        ({ s with hallucination_filter := fres.1, stats := stats },
         .ok (fres.2.text, confidence, processing_time))

/-- The externally-supplied ingredients of one `transcribe` call: its
arguments plus the outcome the configured provider would produce and the
elapsed wall-clock time. -/
structure TranscribeCall where
  language : List Char
  filter_aizuchi : Bool
  additional_hotwords : Option (List String)
  local_outcome : Except PyExn (List Segment × ℚ)
  cloud_outcome : Except PyExn (List Char × ℚ × ℚ)
  elapsed : ℚ

/-- `WhisperService.transcribe` (lines 160–189): dispatch on the configured
provider kind. -/
def WhisperService.transcribe (s : WhisperService) (c : TranscribeCall) :
    WhisperService × Except PyExn (List Char × ℚ × ℚ) :=
  match s.provider_type with
  | .groq | .openai => s.transcribeCloud c.cloud_outcome c.elapsed
  | .localProvider =>
      s.transcribeLocal c.local_outcome c.language c.filter_aizuchi
        c.additional_hotwords c.elapsed

/-- The state-mutating operations the service exposes: `load_model`
(lines 104–158), `transcribe`, and hotword registration
(`HotwordsManager.add_many` via the service's manager). -/
inductive ServiceOp where
  | loadModel
  | transcribeOp (c : TranscribeCall)
  | addHotwords (ws : List String)

/-- Effect of one operation on the service state. -/
def applyOp (s : WhisperService) : ServiceOp → WhisperService
  | .loadModel =>
      match s.provider_type with
      | .localProvider => { s with model := some () }
      | _ => { s with cloud_provider := some () }
  | .transcribeOp c => (s.transcribe c).1
  | .addHotwords ws => { s with hotwords := hotwordsAddMany s.hotwords ws }

/-- Run a sequence of service operations. -/
def runOps (s : WhisperService) (ops : List ServiceOp) : WhisperService :=
  ops.foldl applyOp s

/-- Spec-side reading of the request-term merge (§4.1 `mergeWithRequestTerms`):
walk the request terms, keeping each one that is not already present in what
has been accumulated so far (`seen` starts as the registry list). -/
def dedupAgainst (seen : List String) : List String → List String
  | [] => []
  | w :: ws =>
      if w ∈ seen then dedupAgainst seen ws
      else w :: dedupAgainst (w :: seen) ws

lemma dedupAgainst_congr : ∀ (ws s₁ s₂ : List String),
    (∀ w, w ∈ s₁ ↔ w ∈ s₂) → dedupAgainst s₁ ws = dedupAgainst s₂ ws := by
  intro ws
  induction ws with
  | nil => intro s₁ s₂ _; rfl
  | cons w ws ih =>
      intro s₁ s₂ h
      by_cases hw : w ∈ s₁
      · rw [dedupAgainst, dedupAgainst, if_pos hw, if_pos ((h w).1 hw)]
        exact ih s₁ s₂ h
      · rw [dedupAgainst, dedupAgainst, if_neg hw,
          if_neg (fun hc => hw ((h w).2 hc))]
        refine congrArg _ (ih _ _ ?_)
        intro v
        simp only [List.mem_cons]
        exact or_congr Iff.rfl (h v)

lemma foldl_merge_eq_dedupAgainst : ∀ (ws acc : List String),
    ws.foldl (fun acc w => if w ∈ acc then acc else acc ++ [w]) acc =
      acc ++ dedupAgainst acc ws := by
  intro ws
  induction ws with
  | nil => intro acc; simp [dedupAgainst]
  | cons w ws ih =>
      intro acc
      by_cases hw : w ∈ acc
      · rw [List.foldl_cons, if_pos hw, dedupAgainst, if_pos hw]
        exact ih acc
      · rw [List.foldl_cons, if_neg hw, dedupAgainst, if_neg hw, ih (acc ++ [w]),
          List.append_assoc, List.singleton_append]
        refine congrArg _ (congrArg _ (dedupAgainst_congr _ _ _ ?_))
        intro v
        simp only [List.mem_append, List.mem_cons, List.mem_singleton]
        tauto

/-- C5: `merge_with_request_hotwords` deduplicates the request terms against
the accumulated list (registry first), appends the surviving request terms
after the registry terms, truncates the combined list to `max_total` entries
and joins with `", "`; on a registry `["A","B"]`, merging `["X","Y"]` with
`max_total = 3` yields `"A, B, X"`. -/
theorem merge_with_request_terms_spec :
    (∀ (hw req : List String) (max_total : Nat),
       merge_with_request_hotwords hw (some req) max_total =
         String.intercalate ", " ((hw ++ dedupAgainst hw req).take max_total)) ∧
    merge_with_request_hotwords ["A", "B"] (some ["X", "Y"]) 3 = "A, B, X" := by
  constructor
  · intro hw req max_total
    have hdef : merge_with_request_hotwords hw (some req) max_total =
        String.intercalate ", "
          ((req.foldl (fun acc w => if w ∈ acc then acc else acc ++ [w]) hw).take
            max_total) := rfl
    rw [hdef, foldl_merge_eq_dedupAgainst]
  · decide

/-- C10: with no recorded request, `success_rate` is 1.0 (not 0.0); after any
`record` call it is the ratio of successful to total requests. -/
theorem success_rate_spec :
    (∀ st : TranscriptionStats, st.total_requests = 0 → st.success_rate = 1) ∧
    TranscriptionStats.init.success_rate = 1 ∧
    (∀ (st : TranscriptionStats) (t : ℚ) (b : Bool) (d : ℚ),
       (st.record t b d).success_rate =
         ((st.record t b d).successful_requests : ℚ) /
           ((st.record t b d).total_requests : ℚ)) := by
  refine ⟨?_, ?_, ?_⟩
  · intro st h
    simp [TranscriptionStats.success_rate, h]
  · simp [TranscriptionStats.success_rate, TranscriptionStats.init]
  · intro st t b d
    have h : (st.record t b d).total_requests = st.total_requests + 1 := rfl
    simp [TranscriptionStats.success_rate, h]

/-- Witness for C10: a concrete stats value with zero requests has success
rate 1. -/
theorem success_rate_spec_witness :
    TranscriptionStats.init.total_requests = 0 ∧
      TranscriptionStats.init.success_rate = 1 :=
  ⟨rfl, success_rate_spec.1 TranscriptionStats.init rfl⟩

/-- C6: `is_aizuchi` returns false whenever the filter is disabled, whenever
the trimmed fragment is longer than the configured maximum length, and
whenever the trimmed fragment is empty; only otherwise is the fragment tested
against the ordered pattern list. -/
theorem is_aizuchi_guards :
    ∀ (f : AizuchiFilter) (text : List Char),
      (f.enabled = false → f.is_aizuchi text = false) ∧
      (f.max_length < (pyStrip text).length → f.is_aizuchi text = false) ∧
      (pyStrip text = [] → f.is_aizuchi text = false) ∧
      (f.enabled = true → (pyStrip text).length ≤ f.max_length →
        pyStrip text ≠ [] →
        f.is_aizuchi text = f.patterns.any (fun p => p (pyStrip text))) := by
  intro f text
  refine ⟨?_, ?_, ?_, ?_⟩
  · intro h; simp [AizuchiFilter.is_aizuchi, h]
  · intro h
    unfold AizuchiFilter.is_aizuchi
    by_cases he : f.enabled
    · simp [he, if_pos h]
    · simp [he]
  · intro h
    unfold AizuchiFilter.is_aizuchi
    by_cases he : f.enabled
    · simp [he, h]
    · simp [he]
  · intro he hlen hne
    unfold AizuchiFilter.is_aizuchi
    rw [if_neg (by simp [he])]
    simp only
    rw [if_neg (by omega), if_neg (by simpa [List.length_eq_zero] using hne)]

/-- Witness for C6: all four branches at concrete filters and fragments
(a disabled filter; a 16-character fragment against the default max length 15;
a whitespace-only fragment; a short fragment reaching the pattern test). -/
theorem is_aizuchi_guards_witness :
    (AizuchiFilter.is_aizuchi ⟨[], 15, false⟩ (pys "うん") = false) ∧
    (AizuchiFilter.is_aizuchi ⟨[], 15, true⟩ (pys "abcdefghijklmnop") = false) ∧
    (AizuchiFilter.is_aizuchi ⟨[], 15, true⟩ (pys "   ") = false) ∧
    (AizuchiFilter.is_aizuchi ⟨[fun t => t = pys "うん"], 15, true⟩ (pys "うん") =
      [fun t : List Char => decide (t = pys "うん")].any
        (fun p => p (pyStrip (pys "うん")))) :=
  ⟨(is_aizuchi_guards _ _).1 rfl,
   (is_aizuchi_guards _ _).2.1 (by decide),
   (is_aizuchi_guards _ _).2.2.1 (by decide),
   (is_aizuchi_guards _ _).2.2.2 rfl (by decide) (by decide)⟩

/-- C8: every exception raised by a provider during transcription, on the
local and on the cloud path, is recorded as exactly one failed attempt with
the elapsed processing time and then re-raised unchanged; the last conjunct
spells out what one failed `record` does to the counters. -/
theorem provider_errors_recorded_and_reraised :
    (∀ (s : WhisperService) (ex : PyExn) (lang : List Char) (fa : Bool)
       (hw : Option (List String)) (e : ℚ), s.model = some () →
       s.transcribeLocal (.error ex) lang fa hw e =
         ({ s with stats := s.stats.record e false 0 }, .error ex)) ∧
    (∀ (s : WhisperService) (ex : PyExn) (e : ℚ), s.cloud_provider = some () →
       s.transcribeCloud (.error ex) e =
         ({ s with stats := s.stats.record e false 0 }, .error ex)) ∧
    (∀ (st : TranscriptionStats) (t : ℚ),
       (st.record t false 0).total_requests = st.total_requests + 1 ∧
       (st.record t false 0).failed_requests = st.failed_requests + 1 ∧
       (st.record t false 0).successful_requests = st.successful_requests ∧
       (st.record t false 0).total_processing_time =
         st.total_processing_time + t) := by
  refine ⟨?_, ?_, ?_⟩
  · intro s ex lang fa hw e hm
    unfold WhisperService.transcribeLocal
    rw [hm]
  · intro s ex e hc
    unfold WhisperService.transcribeCloud
    rw [hc]
  · intro st t
    exact ⟨rfl, rfl, rfl, rfl⟩

/-- A service state used by several witnesses: local provider, model loaded,
everything else fresh. -/
def readyLocalService : WhisperService :=
  { WhisperService.init ⟨.localProvider, 15, []⟩ [] with model := some () }

/-- A service state used by several witnesses: groq provider, client loaded. -/
def readyCloudService : WhisperService :=
  { WhisperService.init ⟨.groq, 15, []⟩ [] with cloud_provider := some () }

/-- Witness for C8: a concrete provider exception on each path. -/
theorem provider_errors_recorded_and_reraised_witness :
    (readyLocalService.transcribeLocal (.error (.providerError 7)) (pys "ja")
        true none 2 =
      ({ readyLocalService with
          stats := readyLocalService.stats.record 2 false 0 },
       .error (.providerError 7))) ∧
    (readyCloudService.transcribeCloud (.error (.providerError 7)) 2 =
      ({ readyCloudService with
          stats := readyCloudService.stats.record 2 false 0 },
       .error (.providerError 7))) :=
  ⟨provider_errors_recorded_and_reraised.1 readyLocalService (.providerError 7)
      (pys "ja") true none 2 rfl,
   provider_errors_recorded_and_reraised.2.1 readyCloudService
      (.providerError 7) 2 rfl⟩

/-- C9: calling `transcribe` when the provider for the configured kind was
never initialized yields the "not ready" error with the service state left
untouched (no statistics recorded), for every possible provider outcome — so
no provider is invoked and no fallback happens. -/
theorem transcribe_not_ready :
    (∀ (s : WhisperService) (c : TranscribeCall),
       s.provider_type = .localProvider → s.model = none →
       s.transcribe c = (s, .error .runtimeNotReady)) ∧
    (∀ (s : WhisperService) (c : TranscribeCall),
       (s.provider_type = .groq ∨ s.provider_type = .openai) →
       s.cloud_provider = none →
       s.transcribe c = (s, .error .runtimeNotReady)) := by
  constructor
  · intro s c hp hm
    unfold WhisperService.transcribe
    rw [hp]
    unfold WhisperService.transcribeLocal
    rw [hm]
  · intro s c hp hc
    unfold WhisperService.transcribe
    rcases hp with hp | hp <;> rw [hp] <;>
      · unfold WhisperService.transcribeCloud
        rw [hc]

/-- Witness for C9: a freshly constructed (never loaded) local service and
cloud service both refuse a concrete call, even though the call carries a
successful provider outcome. -/
theorem transcribe_not_ready_witness :
    ((WhisperService.init ⟨.localProvider, 15, []⟩ []).transcribe
        ⟨pys "ja", true, none, .ok ([], 0), .ok (pys "hi", 9/10, 1), 1⟩ =
      (WhisperService.init ⟨.localProvider, 15, []⟩ [],
       .error .runtimeNotReady)) ∧
    ((WhisperService.init ⟨.groq, 15, []⟩ []).transcribe
        ⟨pys "ja", true, none, .ok ([], 0), .ok (pys "hi", 9/10, 1), 1⟩ =
      (WhisperService.init ⟨.groq, 15, []⟩ [], .error .runtimeNotReady)) :=
  ⟨transcribe_not_ready.1 _ _ rfl rfl,
   transcribe_not_ready.2 _ _ (Or.inl rfl) rfl⟩

/-- The confidence component of a successful transcription result. -/
def resultConfidence : Except PyExn (List Char × ℚ × ℚ) → Option ℚ
  | .ok (_, c, _) => some c
  | .error _ => none

lemma foldl_aggStep (aiz : AizuchiFilter) (fa : Bool) :
    ∀ (segs : List Segment) (parts : List (List Char)) (lp : ℚ) (cnt filt : Nat),
      segs.foldl (aggStep aiz fa) (parts, lp, cnt, filt) =
        (parts ++
           (segs.filter fun g => !(fa && aiz.is_aizuchi (pyStrip g.text))).map
             (fun g => pyStrip g.text),
         lp +
           ((segs.filter fun g => !(fa && aiz.is_aizuchi (pyStrip g.text))).map
             Segment.avg_logprob).sum,
         cnt +
           (segs.filter fun g => !(fa && aiz.is_aizuchi (pyStrip g.text))).length,
         filt + segs.countP fun g => fa && aiz.is_aizuchi (pyStrip g.text)) := by
  intro segs
  induction segs with
  | nil => intro parts lp cnt filt; simp
  | cons seg segs ih =>
      intro parts lp cnt filt
      by_cases hb : (fa && aiz.is_aizuchi (pyStrip seg.text)) = true
      · have hnot : (!(fa && aiz.is_aizuchi (pyStrip seg.text))) = false := by
          rw [hb]; rfl
        rw [List.foldl_cons]
        have hstep : aggStep aiz fa (parts, lp, cnt, filt) seg =
            (parts, lp, cnt, filt + 1) := by
          simp only [aggStep]
          rw [if_pos hb]
        rw [hstep, ih]
        have hfil : (List.filter
            (fun g => !(fa && aiz.is_aizuchi (pyStrip g.text))) (seg :: segs)) =
            List.filter (fun g => !(fa && aiz.is_aizuchi (pyStrip g.text))) segs := by
          rw [List.filter_cons, hnot]
          simp
        rw [hfil, List.countP_cons, if_pos hb]
        refine congrArg _ (congrArg _ (congrArg _ ?_))
        omega
      · have hx : (fa && aiz.is_aizuchi (pyStrip seg.text)) = false := by
          revert hb
          cases fa && aiz.is_aizuchi (pyStrip seg.text) <;> simp
        have hnot : (!(fa && aiz.is_aizuchi (pyStrip seg.text))) = true := by
          rw [hx]; rfl
        rw [List.foldl_cons]
        have hstep : aggStep aiz fa (parts, lp, cnt, filt) seg =
            (parts ++ [pyStrip seg.text], lp + seg.avg_logprob, cnt + 1, filt) := by
          simp only [aggStep]
          rw [if_neg hb]
        rw [hstep, ih]
        have hfil : (List.filter
            (fun g => !(fa && aiz.is_aizuchi (pyStrip g.text))) (seg :: segs)) =
            seg :: List.filter (fun g => !(fa && aiz.is_aizuchi (pyStrip g.text))) segs := by
          rw [List.filter_cons, hnot]
          simp
        rw [hfil, List.countP_cons, if_neg hb]
        refine congr (congrArg _ ?_) ?_
        · simp [List.append_assoc]
        refine congr (congrArg _ ?_) ?_
        · simp [List.map_cons, List.sum_cons]
          ring
        refine congr (congrArg _ ?_) ?_
        · simp [List.length_cons]
          omega
        · omega

/-- C4: on the local path, the returned confidence is
`clamp(0, 1, 1 + averageLogProbability / 3)` where `averageLogProbability` is
the mean `avg_logprob` over kept (non-filtered) segments, 0.0 when no segment
is kept; and the mapping sends −3.0 to 0.0, 0.0 to 1.0 and −1.5 to 0.5. -/
theorem local_confidence_formula :
    (∀ (s : WhisperService) (segs : List Segment) (dur : ℚ) (lang : List Char)
       (fa : Bool) (hw : Option (List String)) (e : ℚ),
       s.model = some () →
       resultConfidence (s.transcribeLocal (.ok (segs, dur)) lang fa hw e).2 =
         some
           (if (segs.filter fun g =>
                  !(fa && s.aizuchi_filter.is_aizuchi (pyStrip g.text))).length = 0
            then 0
            else
              clampConfidence
                (((segs.filter fun g =>
                      !(fa && s.aizuchi_filter.is_aizuchi (pyStrip g.text))).map
                    Segment.avg_logprob).sum /
                  ((segs.filter fun g =>
                      !(fa && s.aizuchi_filter.is_aizuchi (pyStrip g.text))).length
                    : ℚ)))) ∧
    clampConfidence (-3) = 0 ∧ clampConfidence 0 = 1 ∧
    clampConfidence (-3 / 2) = 1 / 2 := by
  refine ⟨?_, ?_, ?_, ?_⟩
  · intro s segs dur lang fa hw e hm
    simp only [WhisperService.transcribeLocal, hm, aggregateSegments,
      foldl_aggStep, List.nil_append, zero_add, Nat.zero_add, resultConfidence]
  · rw [clampConfidence]; norm_num
  · rw [clampConfidence]; norm_num
  · rw [clampConfidence]; norm_num [min_def, max_def]

/-- Witness for C4: two concrete segments on a ready local service. -/
theorem local_confidence_formula_witness :
    resultConfidence
        (readyLocalService.transcribeLocal
          (.ok ([⟨pys "うん", -1/10⟩, ⟨pys "これはテストです", -2/5⟩], 3))
          (pys "ja") true none 1).2 =
      some
        (if (([⟨pys "うん", -1/10⟩, ⟨pys "これはテストです", -2/5⟩] :
                List Segment).filter fun g =>
               !(true && readyLocalService.aizuchi_filter.is_aizuchi
                   (pyStrip g.text))).length = 0
         then 0
         else
           clampConfidence
             (((([⟨pys "うん", -1/10⟩, ⟨pys "これはテストです", -2/5⟩] :
                    List Segment).filter fun g =>
                  !(true && readyLocalService.aizuchi_filter.is_aizuchi
                      (pyStrip g.text))).map Segment.avg_logprob).sum /
               ((([⟨pys "うん", -1/10⟩, ⟨pys "これはテストです", -2/5⟩] :
                    List Segment).filter fun g =>
                  !(true && readyLocalService.aizuchi_filter.is_aizuchi
                      (pyStrip g.text))).length : ℚ))) :=
  local_confidence_formula.1 readyLocalService
    [⟨pys "うん", -1/10⟩, ⟨pys "これはテストです", -2/5⟩] 3 (pys "ja") true none 1 rfl

lemma is_aizuchi_of_disabled (f : AizuchiFilter) (h : f.enabled = false)
    (t : List Char) : f.is_aizuchi t = false := by
  simp [AizuchiFilter.is_aizuchi, h]

lemma filter_of_disabled (f : HallucinationFilter) (h : f.enabled = false)
    (t : List Char) : f.filter t = (f, ⟨t, false, none⟩) := by
  unfold HallucinationFilter.filter
  rw [if_pos]
  rw [h]
  rfl

lemma filter_fst_enabled (f : HallucinationFilter) (t : List Char) :
    ((f.filter t).1).enabled = f.enabled := by
  unfold HallucinationFilter.filter
  split
  · rfl
  split
  · rfl
  split
  · split <;> rfl
  · rfl
  · rfl

lemma transcribe_preserves_filters (s : WhisperService) (c : TranscribeCall) :
    ((s.transcribe c).1).aizuchi_filter = s.aizuchi_filter ∧
      ((s.transcribe c).1).hallucination_filter.enabled =
        s.hallucination_filter.enabled := by
  cases hp : s.provider_type
  case localProvider =>
    simp only [WhisperService.transcribe, hp, WhisperService.transcribeLocal]
    cases hm : s.model
    · exact ⟨rfl, rfl⟩
    · cases ho : c.local_outcome with
      | error e => exact ⟨rfl, rfl⟩
      | ok val =>
          obtain ⟨segs, dur⟩ := val
          exact ⟨rfl, filter_fst_enabled _ _⟩
  case groq =>
    simp only [WhisperService.transcribe, hp, WhisperService.transcribeCloud]
    cases hcp : s.cloud_provider
    · exact ⟨rfl, rfl⟩
    · cases ho : c.cloud_outcome with
      | error e => exact ⟨rfl, rfl⟩
      | ok val =>
          obtain ⟨text0, conf, ptime⟩ := val
          exact ⟨rfl, filter_fst_enabled _ _⟩
  case openai =>
    simp only [WhisperService.transcribe, hp, WhisperService.transcribeCloud]
    cases hcp : s.cloud_provider
    · exact ⟨rfl, rfl⟩
    · cases ho : c.cloud_outcome with
      | error e => exact ⟨rfl, rfl⟩
      | ok val =>
          obtain ⟨text0, conf, ptime⟩ := val
          exact ⟨rfl, filter_fst_enabled _ _⟩

lemma applyOp_preserves_filters (s : WhisperService) (op : ServiceOp) :
    ((applyOp s op).aizuchi_filter = s.aizuchi_filter) ∧
      ((applyOp s op).hallucination_filter.enabled =
        s.hallucination_filter.enabled) := by
  cases op with
  | loadModel =>
      unfold applyOp
      cases s.provider_type <;> exact ⟨rfl, rfl⟩
  | transcribeOp c => exact transcribe_preserves_filters s c
  | addHotwords ws => exact ⟨rfl, rfl⟩

lemma runOps_preserves_filters :
    ∀ (ops : List ServiceOp) (s : WhisperService),
      ((runOps s ops).aizuchi_filter.enabled = s.aizuchi_filter.enabled) ∧
        ((runOps s ops).hallucination_filter.enabled =
          s.hallucination_filter.enabled) := by
  intro ops
  induction ops with
  | nil => intro s; exact ⟨rfl, rfl⟩
  | cons op ops ih =>
      intro s
      have h1 := applyOp_preserves_filters s op
      have h2 := ih (applyOp s op)
      refine ⟨?_, ?_⟩
      · rw [runOps, List.foldl_cons]
        rw [show List.foldl applyOp (applyOp s op) ops = runOps (applyOp s op) ops from rfl]
        rw [h2.1, h1.1]
      · rw [runOps, List.foldl_cons]
        rw [show List.foldl applyOp (applyOp s op) ops = runOps (applyOp s op) ops from rfl]
        rw [h2.2, h1.2]

/-- C3: a `WhisperService` is constructed with both the aizuchi filter and the
hallucination filter disabled, and no service operation (loading, any sequence
of transcriptions, hotword registration) ever enables them; consequently, on
the service as actually constructed, `is_aizuchi` rejects every fragment and
the hallucination filter passes every text through unchanged with
`was_filtered = false`. -/
theorem constructed_service_filters_disabled :
    ∀ (cfg : WhisperConfig) (patterns : List (List Char → Bool))
      (ops : List ServiceOp),
      ((runOps (WhisperService.init cfg patterns) ops).aizuchi_filter.enabled
          = false) ∧
      ((runOps (WhisperService.init cfg patterns)
          ops).hallucination_filter.enabled = false) ∧
      (∀ text, (runOps (WhisperService.init cfg patterns)
          ops).aizuchi_filter.is_aizuchi text = false) ∧
      (∀ text, (runOps (WhisperService.init cfg patterns)
          ops).hallucination_filter.filter text =
        ((runOps (WhisperService.init cfg patterns) ops).hallucination_filter,
         ⟨text, false, none⟩)) := by
  intro cfg patterns ops
  have h := runOps_preserves_filters ops (WhisperService.init cfg patterns)
  have ha : (runOps (WhisperService.init cfg patterns) ops).aizuchi_filter.enabled
      = false := h.1
  have hh : (runOps (WhisperService.init cfg patterns)
      ops).hallucination_filter.enabled = false := h.2
  exact ⟨ha, hh, fun text => is_aizuchi_of_disabled _ ha text,
    fun text => filter_of_disabled _ hh text⟩

/-- C7: with the filter enabled and a non-empty input, a boilerplate-pattern
match is checked before any repetition analysis and short-circuits it: the
filter bumps `pattern_filtered` and `total_filtered` (leaving
`repetition_filtered` untouched, since the repetition check never runs) and
returns empty text, `was_filtered = true`, reason `"pattern_match"`.  The
second and third conjuncts show the matching is an unanchored substring
search and case-insensitive: `music` is found in any surrounding text, in
either case. -/
theorem pattern_check_runs_first :
    (∀ (f : HallucinationFilter) (text : List Char),
       f.enabled = true → text ≠ [] → detect_pattern_hallucination text = true →
       f.filter text =
         ({ f with total_filtered := f.total_filtered + 1,
                   pattern_filtered := f.pattern_filtered + 1 },
          ⟨[], true, some (pys "pattern_match")⟩)) ∧
    (∀ a b : List Char,
       detect_pattern_hallucination (a ++ pys "music" ++ b) = true) ∧
    (∀ a b : List Char,
       detect_pattern_hallucination (a ++ pys "MUSIC" ++ b) = true) := by
  refine ⟨?_, ?_, ?_⟩
  · intro f text he ht hd
    unfold HallucinationFilter.filter
    rw [he, hd]
    simp [ht]
  · intro a b
    have hne : a ++ pys "music" ++ b ≠ [] := by
      intro hcontra
      have hlen := congrArg List.length hcontra
      simp [pys] at hlen
    have hgoal : isSubstring (pys "music")
        (List.map Char.toLower a ++
          (List.map Char.toLower (pys "music") ++ List.map Char.toLower b)) =
        true := by
      rw [show List.map Char.toLower (pys "music") = pys "music" from by decide]
      exact decide_eq_true
        ⟨List.map Char.toLower a, List.map Char.toLower b,
          by rw [List.append_assoc]⟩
    rw [detect_pattern_hallucination, if_neg hne]
    simp [hgoal]
  · intro a b
    have hne : a ++ pys "MUSIC" ++ b ≠ [] := by
      intro hcontra
      have hlen := congrArg List.length hcontra
      simp [pys] at hlen
    have hgoal : isSubstring (pys "music")
        (List.map Char.toLower a ++
          (List.map Char.toLower (pys "MUSIC") ++ List.map Char.toLower b)) =
        true := by
      rw [show List.map Char.toLower (pys "MUSIC") = pys "music" from by decide]
      exact decide_eq_true
        ⟨List.map Char.toLower a, List.map Char.toLower b,
          by rw [List.append_assoc]⟩
    rw [detect_pattern_hallucination, if_neg hne]
    simp [hgoal]

/-- Witness for C7: the default (enabled) filter on the music marker `♪`. -/
theorem pattern_check_runs_first_witness :
    HallucinationFilter.default.filter (pys "♪") =
      ({ HallucinationFilter.default with
          total_filtered := HallucinationFilter.default.total_filtered + 1,
          pattern_filtered := HallucinationFilter.default.pattern_filtered + 1 },
       ⟨[], true, some (pys "pattern_match")⟩) :=
  pattern_check_runs_first.1 HallucinationFilter.default (pys "♪") rfl
    (by decide) (by decide)

lemma find?_range'_some (p : Nat → Bool) :
    ∀ (n a x : Nat), (List.range' a n).find? p = some x →
      p x = true ∧ a ≤ x ∧ x < a + n ∧ ∀ m, a ≤ m → m < x → p m = false := by
  intro n
  induction n with
  | zero => intro a x h; simp at h
  | succ n ih =>
      intro a x h
      rw [List.range'_succ] at h
      by_cases hpa : p a
      · rw [List.find?_cons_of_pos _ hpa] at h
        injection h with h
        subst h
        exact ⟨hpa, le_refl _, by omega, fun m hm1 hm2 => absurd hm1 (by omega)⟩
      · rw [List.find?_cons_of_neg _ hpa] at h
        obtain ⟨h1, h2, h3, h4⟩ := ih (a + 1) x h
        refine ⟨h1, by omega, by omega, ?_⟩
        intro m hm1 hm2
        rcases Nat.eq_or_lt_of_le hm1 with heq | hlt
        · rw [← heq]
          exact Bool.eq_false_iff.mpr hpa
        · exact h4 m (by omega) hm2

lemma find?_range'_none (p : Nat → Bool) (n a : Nat)
    (h : (List.range' a n).find? p = none) :
    ∀ m, a ≤ m → m < a + n → p m = false := by
  intro m hm1 hm2
  have hmem : m ∈ List.range' a n := List.mem_range'_1.mpr ⟨hm1, hm2⟩
  exact Bool.eq_false_iff.mpr (List.find?_eq_none.mp h m hmem)

/-- C2: the substring-repetition detector scans candidate prefix lengths from
2 up to `min(max_repetition_length, len(text) / 2)` in increasing order,
counting non-overlapping occurrences of each prefix, and returns the first
length whose occurrence count reaches `min_repetition_count` and whose covered
length is ≥ 80% of the text (`substringQualifies`); on `"abcabcabcabc"` the
full filter detects substring repetition with phrase `"abc"`. -/
theorem substring_scan_first_qualifying :
    (∀ (f : HallucinationFilter) (t : List Char) (len : Nat),
       detectSubstringLen f t = some len →
       2 ≤ len ∧ len ≤ min f.max_repetition_length (t.length / 2) ∧
       substringQualifies f t len = true ∧
       ∀ m, 2 ≤ m → m < len → substringQualifies f t m = false) ∧
    (∀ (f : HallucinationFilter) (t : List Char),
       detectSubstringLen f t = none →
       ∀ m, 2 ≤ m → m ≤ min f.max_repetition_length (t.length / 2) →
       substringQualifies f t m = false) ∧
    HallucinationFilter.default.filter (pys "abcabcabcabc") =
      ({ HallucinationFilter.default with
          total_filtered := 1, repetition_filtered := 1 },
       ⟨pys "abc", true, some (pys "repetition:abc")⟩) := by
  refine ⟨?_, ?_, by decide⟩
  · intro f t len h
    obtain ⟨h1, h2, h3, h4⟩ :=
      find?_range'_some (fun len => substringQualifies f t len) _ _ _ h
    refine ⟨h2, ?_, h1, h4⟩
    omega
  · intro f t h m hm1 hm2
    refine find?_range'_none (fun len => substringQualifies f t len) _ _ h m hm1 ?_
    omega

/-- Witness for C2: the scan on `"abcabcabcabc"` returns prefix length 3
(`"abc"`), which qualifies while lengths 2 does not. -/
theorem substring_scan_first_qualifying_witness :
    2 ≤ 3 ∧
    3 ≤ min HallucinationFilter.default.max_repetition_length
        ((pys "abcabcabcabc").length / 2) ∧
    substringQualifies HallucinationFilter.default (pys "abcabcabcabc") 3 =
      true ∧
    ∀ m, 2 ≤ m → m < 3 →
      substringQualifies HallucinationFilter.default (pys "abcabcabcabc") m =
        false :=
  substring_scan_first_qualifying.1 HallucinationFilter.default
    (pys "abcabcabcabc") 3 (by decide)

lemma pySplitAux_sound :
    ∀ (s acc : List Char), (∀ c ∈ acc, pySpace c = false) →
      ∀ w ∈ pySplitAux s acc, w ≠ [] ∧ ∀ c ∈ w, pySpace c = false := by
  intro s
  induction s with
  | nil =>
      intro acc hacc w hw
      cases acc with
      | nil => simp [pySplitAux] at hw
      | cons x xs =>
          simp only [pySplitAux, List.mem_singleton] at hw
          subst hw
          refine ⟨by simp, ?_⟩
          intro c hc
          exact hacc c (List.mem_reverse.mp hc)
  | cons c cs ih =>
      intro acc hacc w hw
      by_cases hc : pySpace c = true
      · by_cases ha : acc = []
        · rw [pySplitAux] at hw
          rw [if_pos hc, if_pos ha] at hw
          exact ih [] (by simp) w hw
        · rw [pySplitAux] at hw
          rw [if_pos hc, if_neg ha] at hw
          rcases List.mem_cons.mp hw with hw | hw
          · subst hw
            refine ⟨by simpa using ha, ?_⟩
            intro d hd
            exact hacc d (List.mem_reverse.mp hd)
          · exact ih [] (by simp) w hw
      · rw [pySplitAux] at hw
        rw [if_neg hc] at hw
        refine ih (c :: acc) ?_ w hw
        intro d hd
        rcases List.mem_cons.mp hd with hd | hd
        · subst hd
          exact Bool.eq_false_iff.mpr hc
        · exact hacc d hd

lemma dropWhile_eq_self_of (p : Char → Bool) :
    ∀ (l : List Char), (∀ c ∈ l, p c = false) → l.dropWhile p = l := by
  intro l hl
  cases l with
  | nil => rfl
  | cons a l =>
      rw [List.dropWhile_cons, if_neg]
      rw [hl a (List.mem_cons_self a l)]
      simp

lemma pyStrip_of_no_space (w : List Char) (h : ∀ c ∈ w, pySpace c = false) :
    pyStrip w = w := by
  unfold pyStrip
  rw [dropWhile_eq_self_of pySpace w h]
  rw [dropWhile_eq_self_of pySpace w.reverse
    (fun c hc => h c (List.mem_reverse.mp hc))]
  exact List.reverse_reverse w

/-- Counterexample to C1 as stated: `"a a a"` consists of three identical
whitespace-separated tokens, yet (because `detect_repetition` ignores any text
shorter than 6 characters) the enabled default filter returns it unchanged
with `was_filtered = false`, not the single token with
reason `"repetition:a"`. -/
theorem whole_token_repetition_counterexample :
    pySplit (pyStrip (pys "a a a")) = List.replicate 3 (pys "a") ∧
    (pys "a a a").length < 6 ∧
    HallucinationFilter.default.filter (pys "a a a") =
      (HallucinationFilter.default, ⟨pys "a a a", false, none⟩) := by
  refine ⟨by decide, by decide, by decide⟩

/-- C1 (amended): for every text of length ≥ 6 that consists of N ≥ 3
identical whitespace-separated tokens and does not match a boilerplate
pattern, the enabled default filter (min_repetition_count = 3) detects the
whole-token repetition and returns the single token instance (trimmed), with
`was_filtered = true` and reason `"repetition:<token>"`. -/
theorem whole_token_repetition_amended :
    ∀ (text w : List Char) (n : Nat),
      3 ≤ n → 6 ≤ text.length →
      pySplit (pyStrip text) = List.replicate n w →
      detect_pattern_hallucination text = false →
      HallucinationFilter.default.filter text =
        ({ HallucinationFilter.default with
            total_filtered := 1, repetition_filtered := 1 },
         ⟨w, true, some (pys "repetition:" ++ w)⟩) := by
  intro text w n hn hlen hsplit hpat
  have htne : text ≠ [] := by
    intro hc
    rw [hc] at hlen
    simp at hlen
  have hwmem : w ∈ pySplit (pyStrip text) := by
    rw [hsplit]
    exact List.mem_replicate.mpr ⟨by omega, rfl⟩
  obtain ⟨hwne, hwns⟩ := pySplitAux_sound (pyStrip text) [] (by simp) w hwmem
  obtain ⟨m, rfl⟩ : ∃ m, n = m + 1 := ⟨n - 1, by omega⟩
  have hall : ((List.replicate m w).all fun x => decide (x = w)) = true := by
    rw [List.all_eq_true]
    intro x hx
    rw [List.mem_replicate] at hx
    simp [hx.2]
  have hminle : decide (HallucinationFilter.default.min_repetition_count ≤
      (w :: List.replicate m w).length) = true := by
    simp only [List.length_cons, List.length_replicate, decide_eq_true_eq]
    have h3 : HallucinationFilter.default.min_repetition_count = 3 := rfl
    rw [h3]
    omega
  have hdet : detect_repetition HallucinationFilter.default text =
      (true, some w) := by
    unfold detect_repetition
    rw [if_neg (by simp [htne]; omega)]
    simp only [hsplit, List.replicate_succ, hminle, hall, Bool.and_self,
      if_true]
  unfold HallucinationFilter.filter
  rw [if_neg (by simp [htne, HallucinationFilter.default])]
  rw [hpat]
  rw [if_neg (by simp)]
  simp only [hdet]
  rw [if_pos hwne]
  rw [pyStrip_of_no_space w hwns]
  rfl

/-- Witness for the amended C1: `"foo foo foo"` (length 11, three identical
tokens, no boilerplate match) collapses to `"foo"`. -/
theorem whole_token_repetition_amended_witness :
    HallucinationFilter.default.filter (pys "foo foo foo") =
      ({ HallucinationFilter.default with
          total_filtered := 1, repetition_filtered := 1 },
       ⟨pys "foo", true, some (pys "repetition:" ++ pys "foo")⟩) :=
  whole_token_repetition_amended (pys "foo foo foo") (pys "foo") 3
    (by decide) (by decide) (by decide) (by decide)

end WhisperApi
